import Mathlib

/-!
Verification development for the Manus-SDK-to-IsaacLab bridge
(`bridge.cpp` / `bridge.hpp`).

The C++ source is shallowly embedded in Lean:

* The single-slot hand-off between the SDK callback thread and the polling
  consumer (`m_NextRawSkeleton` / `m_RawSkeleton`, guarded by
  `m_RawSkeletonMutex`) is modelled as a state machine over abstract snapshot
  identifiers.  Since every access to the two pointers in the source happens
  inside the mutex, the interleaving of callback firings and polls is a
  sequence of atomic `publish` / `poll` steps, which is exactly what the
  trace semantics below executes.
* The flattening loop of `Bridge::Poll` (bridge.cpp lines 209-241) is
  embedded as a recursive function over the list of skeletons, threading the
  output buffer (a Lean list standing for the caller's array) and the running
  `buffer_index`.
* The frame assembly of `Bridge::OnRawSkeletonStreamCallback`
  (bridge.cpp lines 315-343) is embedded with the two SDK fetch calls as
  oracle parameters that return a success flag together with the data the
  call leaves in the output argument.
* The C entry point `poll` (bridge.cpp lines 25-38) is embedded with the
  global instance and the two nullable pointer arguments made explicit.

Machine floats are only copied by the bridge, never computed with, so vector
and quaternion components are carried as opaque `Int` payloads.
-/

namespace ManusBridge

/-! ## Ownership model of the latest-frame slot

Snapshots (`ClientRawSkeletonCollection` objects) are identified by the order
in which they are allocated: the k-th `new ClientRawSkeletonCollection()`
executed by the callback gets identifier k.  The state records the two
pointer fields of `Bridge` plus the allocation counter and the list of
identifiers that have been passed to `delete`, in order. -/

/-- One atomic operation on the slot: `pub` is one callback firing
(`OnRawSkeletonStreamCallback` lines 337-341), `poll` is one call to
`Bridge::Poll` (its swap section, lines 194-199). -/
inductive Op : Type where
  | pub : Op
  | poll : Op
  deriving DecidableEq

/-- The pointer/ownership state of a `Bridge` object:
`next` models `m_NextRawSkeleton`, `displayed` models `m_RawSkeleton`,
`created` is the number of snapshots allocated so far (also the identifier
of the next snapshot to be allocated), `destroyed` lists the identifiers
passed to `delete`, in program order. -/
structure BridgeSt where
  next : Option Nat
  displayed : Option Nat
  created : Nat
  destroyed : List Nat
  deriving DecidableEq

/-- State of a freshly constructed `Bridge` (both pointer members are
initialized to `nullptr` in bridge.hpp lines 100-101). -/
def initB : BridgeSt :=
  { next := none, displayed := none, created := 0, destroyed := [] }

/-- One callback firing, bridge.cpp lines 337-341: allocate a fresh snapshot,
then under the mutex `delete` the pending one (if any) and store the fresh
one as pending. -/
def publish (s : BridgeSt) : BridgeSt :=
  { next := some s.created
    displayed := s.displayed
    created := s.created + 1
    destroyed := s.destroyed ++ s.next.toList }

/-- The swap section of `Bridge::Poll`, bridge.cpp lines 197-199:
`delete m_RawSkeleton; m_RawSkeleton = m_NextRawSkeleton;
m_NextRawSkeleton = nullptr;`.  The second component is the snapshot the
consumer claims with this poll (the value moved into `m_RawSkeleton`). -/
def pollSwap (s : BridgeSt) : BridgeSt × Option Nat :=
  ({ next := none
     displayed := s.next
     created := s.created
     destroyed := s.destroyed ++ s.displayed.toList }, s.next)

/-- The destructor `Bridge::~Bridge()`, bridge.cpp line 55: it only clears `s_Instance`;
it deletes neither `m_RawSkeleton` nor `m_NextRawSkeleton`, so the
ownership state is unchanged. -/
def destructorB (s : BridgeSt) : BridgeSt := s

/-- Execute a sequence of slot operations, collecting the snapshot claimed
by each poll (`none` when the slot was empty). -/
def runOps : List Op → BridgeSt → BridgeSt × List (Option Nat)
  | [], s => (s, [])
  | Op.pub :: ops, s => runOps ops (publish s)
  | Op.poll :: ops, s =>
      let p := pollSwap s
      let r := runOps ops p.1
      (r.1, p.2 :: r.2)

/-- The identifiers actually claimed (successfully) along a trace started
from a fresh bridge. -/
def claimedIds (ops : List Op) : List Nat :=
  (runOps ops initB).2.filterMap id

/-- Follows the spec's words only (for comparison with the code model):
"the most recently published snapshot not yet claimed".  The accumulator
holds the latest published identifier; a claim clears it.  `k` counts the
publishes seen so far, numbering snapshots as the code model does. -/
def specLatestUnclaimedAux : List Op → Nat → Option Nat → Option Nat
  | [], _, acc => acc
  | Op.pub :: ops, k, _ => specLatestUnclaimedAux ops (k + 1) (some k)
  | Op.poll :: ops, k, _ => specLatestUnclaimedAux ops k none

/-- The most recently published, not yet claimed snapshot after a trace,
per the spec's words. -/
def specLatestUnclaimed (ops : List Op) : Option Nat :=
  specLatestUnclaimedAux ops 0 none

theorem runOps_next (ops : List Op) :
    ∀ s : BridgeSt, (runOps ops s).1.next =
      specLatestUnclaimedAux ops s.created s.next := by
  induction ops with
  | nil => intro s; rfl
  | cons op ops ih =>
      intro s
      cases op with
      | pub => simpa [runOps, specLatestUnclaimedAux, publish] using ih (publish s)
      | poll => simpa [runOps, specLatestUnclaimedAux, pollSwap] using ih (pollSwap s).1

theorem runOps_append (l₁ l₂ : List Op) : ∀ s : BridgeSt,
    runOps (l₁ ++ l₂) s =
      ((runOps l₂ (runOps l₁ s).1).1, (runOps l₁ s).2 ++ (runOps l₂ (runOps l₁ s).1).2) := by
  induction l₁ with
  | nil => intro s; simp [runOps]
  | cons op l₁ ih =>
      intro s
      cases op with
      | pub => simpa [runOps] using ih (publish s)
      | poll => simp [runOps, ih (pollSwap s).1]

theorem runOps_created_le (ops : List Op) :
    ∀ s : BridgeSt, s.created ≤ (runOps ops s).1.created := by
  induction ops with
  | nil => intro s; exact Nat.le_refl _
  | cons op ops ih =>
      intro s
      cases op with
      | pub => exact Nat.le_trans (Nat.le_succ _) (ih (publish s))
      | poll => exact ih (pollSwap s).1

/-- The identifiers claimed along a trace started from an arbitrary state. -/
def claimedOf (ops : List Op) (s : BridgeSt) : List Nat :=
  (runOps ops s).2.filterMap id

theorem claimedIds_eq (ops : List Op) : claimedIds ops = claimedOf ops initB := rfl

theorem claimed_chain (ops : List Op) : ∀ s : BridgeSt,
    (∀ i, s.next = some i → i < s.created) →
    List.Chain' (· < ·) (claimedOf ops s) ∧
    (∀ i, s.next = some i → ∀ j ∈ claimedOf ops s, i ≤ j) ∧
    (s.next = none → ∀ j ∈ claimedOf ops s, s.created ≤ j) := by
  induction ops with
  | nil => intro s _; simp [claimedOf, runOps]
  | cons op ops ih =>
      intro s h
      cases op with
      | pub =>
          have hnext : ∀ i, (publish s).next = some i → i < (publish s).created := by
            intro i hi
            simp [publish] at hi
            simp [publish]
            omega
          obtain ⟨hc, hsome, _⟩ := ih (publish s) hnext
          have heq : claimedOf (Op.pub :: ops) s = claimedOf ops (publish s) := rfl
          rw [heq]
          refine ⟨hc, ?_, ?_⟩
          · intro i hi j hj
            have h1 := hsome s.created (by simp [publish]) j hj
            have h2 := h i hi
            omega
          · intro _ j hj
            exact hsome s.created (by simp [publish]) j hj
      | poll =>
          have hnext : ∀ i, (pollSwap s).1.next = some i →
              i < (pollSwap s).1.created := by
            intro i hi; simp [pollSwap] at hi
          obtain ⟨hc, _, hnone⟩ := ih (pollSwap s).1 hnext
          have hnone' := hnone rfl
          have hcr : (pollSwap s).1.created = s.created := rfl
          cases hn : s.next with
          | none =>
              have heq : claimedOf (Op.poll :: ops) s = claimedOf ops (pollSwap s).1 := by
                simp [claimedOf, runOps, pollSwap, hn]
              rw [heq]
              exact ⟨hc, by intro i hi; exact absurd hi (by simp),
                fun _ j hj => hnone' j hj⟩
          | some i =>
              have heq : claimedOf (Op.poll :: ops) s = i :: claimedOf ops (pollSwap s).1 := by
                simp [claimedOf, runOps, pollSwap, hn]
              rw [heq]
              have hi_lt : i < s.created := h i hn
              refine ⟨?_, ?_, ?_⟩
              · rw [List.chain'_cons']
                refine ⟨?_, hc⟩
                intro y hy
                have hymem : y ∈ claimedOf ops (pollSwap s).1 := List.mem_of_mem_head? hy
                have := hnone' y hymem
                omega
              · intro i' hi' j hj
                injection hi' with hii
                subst hii
                rcases List.mem_cons.mp hj with rfl | hj
                · exact Nat.le_refl _
                · have := hnone' j hj; omega
              · intro habs; exact absurd habs (by simp)

/-! ### Snapshot destruction accounting

`GoodSt` is the invariant tying the two pointers to the destruction list:
no identifier is deleted twice, live pointers are to allocated, undeleted,
distinct snapshots, and every allocated snapshot is either deleted or still
reachable through one of the two pointers. -/

def GoodSt (s : BridgeSt) : Prop :=
  s.destroyed.Nodup ∧
  (∀ n ∈ s.destroyed, n < s.created) ∧
  (∀ i, s.next = some i → i < s.created ∧ i ∉ s.destroyed) ∧
  (∀ i, s.displayed = some i → i < s.created ∧ i ∉ s.destroyed) ∧
  (∀ i j, s.next = some i → s.displayed = some j → i ≠ j) ∧
  (∀ n, n < s.created → n ∈ s.destroyed ∨ s.next = some n ∨ s.displayed = some n)

theorem goodSt_initB : GoodSt initB := by
  refine ⟨by simp [initB], by simp [initB], ?_, ?_, ?_, ?_⟩
  · intro i hi; exact absurd hi (by simp [initB])
  · intro i hi; exact absurd hi (by simp [initB])
  · intro i j hi; exact absurd hi (by simp [initB])
  · intro n hn; exact absurd hn (by simp [initB])

theorem goodSt_publish {s : BridgeSt} (hs : GoodSt s) : GoodSt (publish s) := by
  obtain ⟨hnd, hlt, hn, hd, hne, hcov⟩ := hs
  have hmem : ∀ n, n ∈ (publish s).destroyed ↔ n ∈ s.destroyed ∨ s.next = some n := by
    intro n
    cases hx : s.next <;> simp [publish, hx, eq_comm]
  refine ⟨?_, ?_, ?_, ?_, ?_, ?_⟩
  · cases hx : s.next with
    | none => simpa [publish, hx] using hnd
    | some i =>
        simp only [publish, hx, Option.toList]
        exact List.Nodup.append hnd (List.nodup_singleton i)
          (by intro a ha hb; simp at hb; subst hb; exact (hn _ hx).2 ha)
  · intro n hmem'
    rcases (hmem n).mp hmem' with h1 | h1
    · have := hlt n h1; simp [publish]; omega
    · have := (hn n h1).1; simp [publish]; omega
  · intro i hi
    simp [publish] at hi
    subst hi
    constructor
    · simp [publish]
    · intro hc
      rcases (hmem s.created).mp hc with h1 | h1
      · have := hlt _ h1; omega
      · have := (hn _ h1).1; omega
  · intro i hi
    have hi' : s.displayed = some i := hi
    obtain ⟨h1, h2⟩ := hd i hi'
    constructor
    · simp [publish]; omega
    · intro hc
      rcases (hmem i).mp hc with h3 | h3
      · exact h2 h3
      · exact hne i i h3 hi' rfl
  · intro i j hi hj
    simp [publish] at hi
    subst hi
    have hj' : s.displayed = some j := hj
    have := (hd j hj').1
    omega
  · intro n hn'
    simp [publish] at hn'
    rcases Nat.lt_or_ge n s.created with h1 | h1
    · rcases hcov n h1 with h2 | h2 | h2
      · exact Or.inl ((hmem n).mpr (Or.inl h2))
      · exact Or.inl ((hmem n).mpr (Or.inr h2))
      · exact Or.inr (Or.inr h2)
    · have : n = s.created := by omega
      subst this
      exact Or.inr (Or.inl (by simp [publish]))

theorem goodSt_pollSwap {s : BridgeSt} (hs : GoodSt s) : GoodSt (pollSwap s).1 := by
  obtain ⟨hnd, hlt, hn, hd, hne, hcov⟩ := hs
  have hmem : ∀ n, n ∈ (pollSwap s).1.destroyed ↔ n ∈ s.destroyed ∨ s.displayed = some n := by
    intro n
    cases hx : s.displayed <;> simp [pollSwap, hx, eq_comm]
  refine ⟨?_, ?_, ?_, ?_, ?_, ?_⟩
  · cases hx : s.displayed with
    | none => simpa [pollSwap, hx] using hnd
    | some i =>
        simp only [pollSwap, hx, Option.toList]
        exact List.Nodup.append hnd (List.nodup_singleton i)
          (by intro a ha hb; simp at hb; subst hb; exact (hd _ hx).2 ha)
  · intro n hmem'
    rcases (hmem n).mp hmem' with h1 | h1
    · have := hlt n h1; simpa [pollSwap] using this
    · have := (hd n h1).1; simpa [pollSwap] using this
  · intro i hi; exact absurd hi (by simp [pollSwap])
  · intro i hi
    have hi' : s.next = some i := hi
    obtain ⟨h1, h2⟩ := hn i hi'
    refine ⟨by simpa [pollSwap] using h1, ?_⟩
    intro hc
    rcases (hmem i).mp hc with h3 | h3
    · exact h2 h3
    · exact hne i i hi' h3 rfl
  · intro i j hi; exact absurd hi (by simp [pollSwap])
  · intro n hn'
    have hn'' : n < s.created := by simpa [pollSwap] using hn'
    rcases hcov n hn'' with h2 | h2 | h2
    · exact Or.inl ((hmem n).mpr (Or.inl h2))
    · exact Or.inr (Or.inr h2)
    · exact Or.inl ((hmem n).mpr (Or.inr h2))

theorem goodSt_runOps (ops : List Op) :
    ∀ s : BridgeSt, GoodSt s → GoodSt (runOps ops s).1 := by
  induction ops with
  | nil => intro s hs; exact hs
  | cons op ops ih =>
      intro s hs
      cases op with
      | pub => exact ih (publish s) (goodSt_publish hs)
      | poll => exact ih (pollSwap s).1 (goodSt_pollSwap hs)

/-- Claim C1: for any sequence of publishes interleaved with claims, each
claim returns either empty or the most recently published snapshot not yet
claimed (first conjunct: the claim appended after any prefix returns exactly
the spec-side "latest unclaimed" value, `none` included); no snapshot is
ever claimed twice and no overwritten snapshot is ever claimed (second
conjunct: the claimed identifiers are strictly increasing along any trace,
and by the first conjunct a claim only yields the last published
identifier); and after two publishes with no claim in between, the next
claim yields only the second snapshot while the first has been destroyed
without ever being claimed (third and fourth conjuncts). -/
theorem c1_claim_returns_latest_unclaimed :
    (∀ pre : List Op,
        (runOps (pre ++ [Op.poll]) initB).2 =
          (runOps pre initB).2 ++ [specLatestUnclaimed pre]) ∧
    (∀ ops : List Op, List.Chain' (· < ·) (claimedIds ops)) ∧
    (runOps [Op.pub, Op.pub, Op.poll] initB).2 = [some 1] ∧
    0 ∈ (runOps [Op.pub, Op.pub, Op.poll] initB).1.destroyed := by
  refine ⟨?_, ?_, by decide, by decide⟩
  · intro pre
    rw [runOps_append]
    have hnextval : (runOps pre initB).1.next = specLatestUnclaimed pre := by
      rw [runOps_next]; rfl
    simp [runOps, pollSwap, hnextval]
  · intro ops
    rw [claimedIds_eq]
    exact (claimed_chain ops initB (by intro i hi; exact absurd hi (by simp [initB]))).1

/-- Claim C2: the code evaluated at the claim's failing input — one
callback firing (snapshot 0 published), then destruction of the bridge
instance with no poll in between.  One snapshot has been created, yet the
number of times it has been destroyed is zero, not the exactly-once the
claim (and the spec's no-leak lifecycle) requires: the destructor
(bridge.cpp line 55) only clears `s_Instance` and frees neither
`m_NextRawSkeleton` nor `m_RawSkeleton` — and no other path
(`shutdown` included) frees them either — so the pending snapshot is
leaked. -/
theorem c2_leak_at_failing_input :
    (destructorB (runOps [Op.pub] initB).1).created = 1 ∧
    (destructorB (runOps [Op.pub] initB).1).destroyed.count 0 = 0 ∧
    (destructorB (runOps [Op.pub] initB).1).destroyed.count 0 ≠ 1 := by
  decide

/-- Destruction discipline of the slot, destruction of the bridge included
(the destructor changes nothing): along any publish/poll trace no snapshot
is ever destroyed twice, and a created snapshot has been destroyed
(exactly once) precisely when it is no longer held by either pointer —
so the snapshots still held at destruction are destroyed zero times. -/
theorem destroyed_iff_not_held : ∀ ops : List Op,
    (destructorB (runOps ops initB).1).destroyed.Nodup ∧
    (∀ n, n < (destructorB (runOps ops initB).1).created →
      (n ∈ (destructorB (runOps ops initB).1).destroyed ↔
        ((runOps ops initB).1.next ≠ some n ∧
         (runOps ops initB).1.displayed ≠ some n))) := by
  intro ops
  obtain ⟨hnd, hlt, hn, hd, hne, hcov⟩ := goodSt_runOps ops initB goodSt_initB
  refine ⟨hnd, ?_⟩
  intro n hcreated
  constructor
  · intro hdes
    exact ⟨fun habs => (hn n habs).2 hdes, fun habs => (hd n habs).2 hdes⟩
  · rintro ⟨h1, h2⟩
    rcases hcov n hcreated with h | h | h
    · exact h
    · exact absurd h h1
    · exact absurd h h2

/-- Instance of `destroyed_iff_not_held` at the trace publish-then-poll
and snapshot 0 (claimed and still displayed, hence not destroyed). -/
theorem destroyed_iff_not_held_example :
    0 < (destructorB (runOps [Op.pub, Op.poll] initB).1).created ∧
    ((0 ∈ (destructorB (runOps [Op.pub, Op.poll] initB).1).destroyed) ↔
      ((runOps [Op.pub, Op.poll] initB).1.next ≠ some 0 ∧
       (runOps [Op.pub, Op.poll] initB).1.displayed ≠ some 0)) :=
  ⟨by decide, (destroyed_iff_not_held [Op.pub, Op.poll]).2 0 (by decide)⟩

/-! ## Data model

The SDK structures, restricted to the fields the bridge reads or writes.
Floating-point components are never computed with by the bridge (they are
copied verbatim from `node.transform` into the output record), so they are
carried as opaque `Int` payloads. -/

/-- A 3-vector payload (`ManusVec3`); components are opaque to the bridge. -/
structure MVec3 where
  x : Int
  y : Int
  z : Int
  deriving DecidableEq, Inhabited

/-- A quaternion payload (`ManusQuaternion`); opaque to the bridge. -/
structure MQuat where
  x : Int
  y : Int
  z : Int
  w : Int
  deriving DecidableEq, Inhabited

/-- The part of an SDK transform the bridge reads (`node.transform`). -/
structure MTransform where
  position : MVec3
  rotation : MQuat
  deriving DecidableEq, Inhabited

/-- The part of `SkeletonNode` the bridge reads. -/
structure SkeletonNodeM where
  transform : MTransform
  deriving DecidableEq, Inhabited

/-- The fields of `RawSkeletonInfo` the bridge reads or writes. -/
structure RawSkeletonInfoM where
  gloveId : Nat
  nodesCount : Nat
  publishTime : Nat
  deriving DecidableEq, Inhabited

/-- The class `ClientRawSkeleton` (bridge.hpp lines 62-66). -/
structure ClientRawSkeletonM where
  info : RawSkeletonInfoM
  nodes : List SkeletonNodeM
  deriving DecidableEq, Inhabited

/-- The class `ClientRawSkeletonCollection` (bridge.hpp lines 70-73). -/
structure ClientRawSkeletonCollectionM where
  skeletons : List ClientRawSkeletonM
  deriving DecidableEq, Inhabited

/-- One entry of the `NodeInfo` array filled by
`CoreSdk_GetRawSkeletonNodeInfoArray`; the bridge reads `nodeId` and
`side` (the side enumeration is carried as a `Nat`). -/
structure NodeInfoM where
  nodeId : Nat
  side : Nat
  deriving DecidableEq, Inhabited

/-- The struct `ManusNodePose` (bridge.hpp lines 37-43), the flat output record. -/
structure ManusNodePoseM where
  glove_id : Nat
  node_id : Nat
  side : Nat
  position : MVec3
  orientation : MQuat
  deriving DecidableEq, Inhabited

/-- The record written by the inner loop of `Bridge::Poll`
(bridge.cpp lines 232-237). -/
def mkPose (g : Nat) (ni : NodeInfoM) (node : SkeletonNodeM) : ManusNodePoseM :=
  { glove_id := g
    node_id := ni.nodeId
    side := ni.side
    position := node.transform.position
    orientation := node.transform.rotation }

/-- The metadata lookup oracle: models
`CoreSdk_GetRawSkeletonNodeInfoArray(gloveId, node_info, nodeCount)`.
`none` models a return code other than success (the filled array is then
never read by the bridge); `some a` models success with `a j` the entry
`node_info[j]`. -/
abbrev LookupFn := Nat → Nat → Option (Nat → NodeInfoM)

/-- The inner loop of `Bridge::Poll` (bridge.cpp lines 230-238) over the
remaining node indices `js` (called with `List.range n`): each step writes
one record at the running buffer index and increments it. -/
def flattenNodesGo (g : Nat) (ninfo : Nat → NodeInfoM) (nodes : List SkeletonNodeM) :
    List Nat → List ManusNodePoseM → Nat → List ManusNodePoseM × Nat
  | [], buf, idx => (buf, idx)
  | j :: js, buf, idx =>
      flattenNodesGo g ninfo nodes js
        (buf.set idx (mkPose g (ninfo j) (nodes.getD j default))) (idx + 1)

/-- The skeleton loop of `Bridge::Poll` (bridge.cpp lines 212-239):
per skeleton, break out entirely when `buffer_index + nodesCount`
exceeds the capacity, skip the skeleton when the metadata lookup fails,
and otherwise emit all its nodes in order. -/
def flattenAux (lookup : LookupFn) (cap : Nat) :
    List ClientRawSkeletonM → List ManusNodePoseM → Nat → List ManusNodePoseM × Nat
  | [], buf, idx => (buf, idx)
  | sk :: rest, buf, idx =>
      if idx + sk.info.nodesCount > cap then (buf, idx)
      else
        match lookup sk.info.gloveId sk.info.nodesCount with
        | none => flattenAux lookup cap rest buf idx
        | some ninfo =>
            let w := flattenNodesGo sk.info.gloveId ninfo sk.nodes
              (List.range sk.info.nodesCount) buf idx
            flattenAux lookup cap rest w.1 w.2

/-- The pointer fields of `Bridge` with their pointed-to data
(`none` models a null pointer). -/
structure BridgeData where
  nextRaw : Option ClientRawSkeletonCollectionM
  raw : Option ClientRawSkeletonCollectionM
  deriving DecidableEq, Inhabited

/-- The member `Bridge::Poll` (bridge.cpp lines 192-244): swap in the pending
snapshot (deleting the previously displayed one), return zero on a null or
empty snapshot, and otherwise run the flattening loop from buffer index 0.
Result: (new bridge state, final buffer, count written). -/
def bridgePoll (lookup : LookupFn) (s : BridgeData)
    (buf : List ManusNodePoseM) (cap : Nat) :
    BridgeData × List ManusNodePoseM × Nat :=
  let s' : BridgeData := { nextRaw := none, raw := s.nextRaw }
  match s.nextRaw with
  | none => (s', buf, 0)
  | some coll =>
      if coll.skeletons.isEmpty then (s', buf, 0)
      else
        let f := flattenAux lookup cap coll.skeletons buf 0
        (s', f.1, f.2)

/-- Result of the C entry point `poll`: status code, the instance state
after the call, the buffer after the call, and the value stored through the
`count` out-pointer (`none` when the code never writes it). -/
structure PollResultM where
  status : Int
  inst : Option BridgeData
  buf : List ManusNodePoseM
  countOut : Option Nat
  deriving DecidableEq

/-- The C entry point `poll` (bridge.cpp lines 25-38).  `inst` models
`Bridge::s_Instance` (with its pointed-to data), `bufNull` and `countNull`
model nullness of the two pointer arguments.  The uninitialized check
precedes the argument check, as in the source. -/
def pollApi (lookup : LookupFn) (inst : Option BridgeData)
    (bufNull countNull : Bool) (buf : List ManusNodePoseM) (cap : Nat) :
    PollResultM :=
  match inst with
  | none => { status := -1, inst := none, buf := buf, countOut := none }
  | some s =>
      if bufNull || countNull then
        { status := -3, inst := some s, buf := buf, countOut := none }
      else
        let r := bridgePoll lookup s buf cap
        { status := if r.2.2 = 0 then -2 else 0
          inst := some r.1
          buf := r.2.1
          countOut := some r.2.2 }

/-! ### Spec-side record sequences used to state the flatten theorems -/

/-- The records the inner loop produces for one skeleton whose lookup
succeeded, in node order. -/
def nodeRecords (g : Nat) (ninfo : Nat → NodeInfoM)
    (nodes : List SkeletonNodeM) (n : Nat) : List ManusNodePoseM :=
  (List.range n).map (fun j => mkPose g (ninfo j) (nodes.getD j default))

/-- The records contributed by one skeleton: its node records when the
metadata lookup succeeds, nothing when it fails. -/
def skRecords (lookup : LookupFn) (sk : ClientRawSkeletonM) : List ManusNodePoseM :=
  match lookup sk.info.gloveId sk.info.nodesCount with
  | none => []
  | some ninfo => nodeRecords sk.info.gloveId ninfo sk.nodes sk.info.nodesCount

/-- Total number of nodes declared across all skeletons of a snapshot. -/
def totalNodes (skels : List ClientRawSkeletonM) : Nat :=
  (skels.map (fun sk => sk.info.nodesCount)).sum

/-- Write the records `rs` into `buf` at consecutive positions starting at
`i` (out-of-range writes are dropped, as `List.set` does). -/
def setSeq {α : Type} : List α → Nat → List α → List α
  | buf, _, [] => buf
  | buf, i, r :: rs => setSeq (buf.set i r) (i + 1) rs

theorem setSeq_length {α : Type} (rs : List α) :
    ∀ (buf : List α) (i : Nat), (setSeq buf i rs).length = buf.length := by
  induction rs with
  | nil => intro buf i; rfl
  | cons r rs ih =>
      intro buf i
      rw [setSeq, ih, List.length_set]

theorem setSeq_append {α : Type} (rs ts : List α) :
    ∀ (buf : List α) (i : Nat),
      setSeq buf i (rs ++ ts) = setSeq (setSeq buf i rs) (i + rs.length) ts := by
  induction rs with
  | nil => intro buf i; simp [setSeq]
  | cons r rs ih =>
      intro buf i
      have h : i + 1 + rs.length = i + (rs.length + 1) := by omega
      simp only [List.cons_append, setSeq, List.append_eq, ih, List.length_cons]
      rw [h]

theorem setSeq_getElem?_lt {α : Type} (rs : List α) :
    ∀ (buf : List α) (i j : Nat), j < i → (setSeq buf i rs)[j]? = buf[j]? := by
  induction rs with
  | nil => intro buf i j _; rfl
  | cons r rs ih =>
      intro buf i j hj
      rw [setSeq, ih (buf.set i r) (i + 1) j (by omega),
        List.getElem?_set_ne (by omega)]

theorem setSeq_getElem?_ge {α : Type} (rs : List α) :
    ∀ (buf : List α) (i j : Nat), i + rs.length ≤ j → (setSeq buf i rs)[j]? = buf[j]? := by
  induction rs with
  | nil => intro buf i j _; rfl
  | cons r rs ih =>
      intro buf i j hj
      simp only [List.length_cons] at hj
      rw [setSeq, ih (buf.set i r) (i + 1) j (by omega),
        List.getElem?_set_ne (by omega)]

theorem setSeq_getElem?_mid {α : Type} (rs : List α) :
    ∀ (buf : List α) (i j : Nat), i ≤ j → j < i + rs.length →
      i + rs.length ≤ buf.length → (setSeq buf i rs)[j]? = rs[j - i]? := by
  induction rs with
  | nil =>
      intro buf i j h1 h2 _
      simp only [List.length_nil] at h2
      omega
  | cons r rs ih =>
      intro buf i j h1 h2 h3
      simp only [List.length_cons] at h2 h3
      rcases Nat.eq_or_lt_of_le h1 with rfl | hlt
      · rw [setSeq, setSeq_getElem?_lt rs _ _ _ (Nat.lt_succ_self i),
          List.getElem?_set_eq_of_lt r (by omega)]
        simp
      · rw [setSeq, ih (buf.set i r) (i + 1) j (by omega) (by omega)
          (by rw [List.length_set]; omega)]
        have hsub : j - i = (j - (i + 1)) + 1 := by omega
        rw [hsub, List.getElem?_cons_succ]

theorem setSeq_drop {α : Type} (rs : List α) (buf : List α) (i k : Nat)
    (h : i + rs.length ≤ k) : (setSeq buf i rs).drop k = buf.drop k := by
  apply List.ext_getElem?
  intro m
  rw [List.getElem?_drop, List.getElem?_drop]
  exact setSeq_getElem?_ge rs buf i (k + m) (by omega)

theorem flattenNodesGo_eq (g : Nat) (ninfo : Nat → NodeInfoM) (nodes : List SkeletonNodeM) :
    ∀ (js : List Nat) (buf : List ManusNodePoseM) (idx : Nat),
      flattenNodesGo g ninfo nodes js buf idx =
        (setSeq buf idx (js.map (fun j => mkPose g (ninfo j) (nodes.getD j default))),
          idx + js.length) := by
  intro js
  induction js with
  | nil => intro buf idx; rfl
  | cons j js ih =>
      intro buf idx
      simp only [flattenNodesGo, ih, List.map_cons, setSeq, List.length_cons,
        Prod.mk.injEq]
      refine ⟨by trivial, by omega⟩

theorem flattenAux_idx_le (lookup : LookupFn) (cap : Nat) :
    ∀ (skels : List ClientRawSkeletonM) (buf : List ManusNodePoseM) (idx : Nat),
      idx ≤ cap → (flattenAux lookup cap skels buf idx).2 ≤ cap := by
  intro skels
  induction skels with
  | nil => intro buf idx h; exact h
  | cons sk rest ih =>
      intro buf idx h
      rw [flattenAux]
      by_cases hov : idx + sk.info.nodesCount > cap
      · rw [if_pos hov]; exact h
      · rw [if_neg hov]
        cases hl : lookup sk.info.gloveId sk.info.nodesCount with
        | none => exact ih buf idx h
        | some ninfo =>
            simp only [flattenNodesGo_eq, List.length_range]
            exact ih _ (idx + sk.info.nodesCount) (by omega)

theorem flattenAux_idx_ge (lookup : LookupFn) (cap : Nat) :
    ∀ (skels : List ClientRawSkeletonM) (buf : List ManusNodePoseM) (idx : Nat),
      idx ≤ (flattenAux lookup cap skels buf idx).2 := by
  intro skels
  induction skels with
  | nil => intro buf idx; exact Nat.le_refl _
  | cons sk rest ih =>
      intro buf idx
      rw [flattenAux]
      by_cases hov : idx + sk.info.nodesCount > cap
      · rw [if_pos hov]
      · rw [if_neg hov]
        cases hl : lookup sk.info.gloveId sk.info.nodesCount with
        | none => exact ih buf idx
        | some ninfo =>
            simp only [flattenNodesGo_eq, List.length_range]
            exact Nat.le_trans (Nat.le_add_right idx sk.info.nodesCount) (ih _ _)

theorem flattenAux_drop (lookup : LookupFn) (cap : Nat) :
    ∀ (skels : List ClientRawSkeletonM) (buf : List ManusNodePoseM) (idx k : Nat),
      (flattenAux lookup cap skels buf idx).2 ≤ k →
      (flattenAux lookup cap skels buf idx).1.drop k = buf.drop k := by
  intro skels
  induction skels with
  | nil => intro buf idx k _; rfl
  | cons sk rest ih =>
      intro buf idx k hk
      rw [flattenAux] at hk ⊢
      by_cases hov : idx + sk.info.nodesCount > cap
      · rw [if_pos hov]
      · rw [if_neg hov] at hk ⊢
        cases hl : lookup sk.info.gloveId sk.info.nodesCount with
        | none => rw [hl] at hk; exact ih buf idx k hk
        | some ninfo =>
            rw [hl] at hk
            simp only [flattenNodesGo_eq, List.length_range] at hk ⊢
            have hge := flattenAux_idx_ge lookup cap rest
              (setSeq buf idx ((List.range sk.info.nodesCount).map
                (fun j => mkPose sk.info.gloveId (ninfo j) (sk.nodes.getD j default))))
              (idx + sk.info.nodesCount)
            rw [ih _ _ k hk]
            exact setSeq_drop _ buf idx k
              (by simp only [List.length_map, List.length_range]; omega)

theorem flattenAux_whole_skeletons (lookup : LookupFn) (cap : Nat) :
    ∀ (skels : List ClientRawSkeletonM) (buf : List ManusNodePoseM) (idx : Nat),
      ∃ sub : List ClientRawSkeletonM, List.Sublist sub skels ∧
        (flattenAux lookup cap skels buf idx).2 = idx + totalNodes sub := by
  intro skels
  induction skels with
  | nil => intro buf idx; exact ⟨[], List.Sublist.refl [], by simp [flattenAux, totalNodes]⟩
  | cons sk rest ih =>
      intro buf idx
      rw [flattenAux]
      by_cases hov : idx + sk.info.nodesCount > cap
      · rw [if_pos hov]
        exact ⟨[], List.nil_sublist _, by simp [totalNodes]⟩
      · rw [if_neg hov]
        cases hl : lookup sk.info.gloveId sk.info.nodesCount with
        | none =>
            obtain ⟨sub, hsub, hcount⟩ := ih buf idx
            exact ⟨sub, List.Sublist.cons sk hsub, hcount⟩
        | some ninfo =>
            simp only [flattenNodesGo_eq, List.length_range]
            obtain ⟨sub, hsub, hcount⟩ := ih
              (setSeq buf idx ((List.range sk.info.nodesCount).map
                (fun j => mkPose sk.info.gloveId (ninfo j) (sk.nodes.getD j default))))
              (idx + sk.info.nodesCount)
            refine ⟨sk :: sub, List.Sublist.cons₂ sk hsub, ?_⟩
            rw [hcount]
            simp [totalNodes]
            omega

theorem flattenAux_complete (lookup : LookupFn) (cap : Nat) :
    ∀ (skels : List ClientRawSkeletonM) (buf : List ManusNodePoseM) (idx : Nat),
      idx + totalNodes skels ≤ cap →
      (∀ sk ∈ skels, (lookup sk.info.gloveId sk.info.nodesCount).isSome) →
      flattenAux lookup cap skels buf idx =
        (setSeq buf idx (skels.map (skRecords lookup)).flatten, idx + totalNodes skels) := by
  intro skels
  induction skels with
  | nil => intro buf idx _ _; simp [flattenAux, totalNodes, setSeq]
  | cons sk rest ih =>
      intro buf idx htot hsome
      have htot' : totalNodes (sk :: rest) = sk.info.nodesCount + totalNodes rest := by
        simp [totalNodes]
      rw [flattenAux]
      have hov : ¬ idx + sk.info.nodesCount > cap := by omega
      rw [if_neg hov]
      cases hl : lookup sk.info.gloveId sk.info.nodesCount with
      | none =>
          have := hsome sk (List.mem_cons_self sk rest)
          rw [hl] at this
          exact absurd this (by simp)
      | some ninfo =>
          simp only [flattenNodesGo_eq, List.length_range]
          rw [ih _ (idx + sk.info.nodesCount) (by omega)
            (fun s hs => hsome s (List.mem_cons_of_mem sk hs))]
          have hsk : skRecords lookup sk =
              (List.range sk.info.nodesCount).map
                (fun j => mkPose sk.info.gloveId (ninfo j) (sk.nodes.getD j default)) := by
            rw [skRecords, hl]; rfl
          simp only [List.map_cons, List.flatten_cons, setSeq_append, hsk,
            List.length_map, List.length_range, Prod.mk.injEq]
          refine ⟨by trivial, by omega⟩

theorem skRecords_length (lookup : LookupFn) (sk : ClientRawSkeletonM)
    (h : (lookup sk.info.gloveId sk.info.nodesCount).isSome) :
    (skRecords lookup sk).length = sk.info.nodesCount := by
  rw [skRecords]
  cases hl : lookup sk.info.gloveId sk.info.nodesCount with
  | none => rw [hl] at h; exact absurd h (by simp)
  | some ninfo => simp [nodeRecords]

theorem joinRecords_length (lookup : LookupFn) (skels : List ClientRawSkeletonM)
    (h : ∀ sk ∈ skels, (lookup sk.info.gloveId sk.info.nodesCount).isSome) :
    ((skels.map (skRecords lookup)).flatten).length = totalNodes skels := by
  induction skels with
  | nil => rfl
  | cons sk rest ih =>
      simp only [List.map_cons, List.flatten_cons, List.length_append, totalNodes,
        List.map_cons, List.sum_cons]
      rw [skRecords_length lookup sk (h sk (List.mem_cons_self sk rest)),
        ih (fun s hs => h s (List.mem_cons_of_mem sk hs))]
      rfl

/-! ### Lemmas about `bridgePoll` and the C entry point -/

theorem bridgePoll_state (lookup : LookupFn) (s : BridgeData)
    (buf : List ManusNodePoseM) (cap : Nat) :
    (bridgePoll lookup s buf cap).1 = { nextRaw := none, raw := s.nextRaw } := by
  obtain ⟨nx, rv⟩ := s
  cases nx with
  | none => rfl
  | some coll =>
      simp only [bridgePoll]
      split <;> rfl

theorem bridgePoll_empty (lookup : LookupFn) (s : BridgeData)
    (buf : List ManusNodePoseM) (cap : Nat) (h : s.nextRaw = none) :
    bridgePoll lookup s buf cap = ({ nextRaw := none, raw := none }, buf, 0) := by
  obtain ⟨nx, rv⟩ := s
  cases h
  rfl

theorem bridgePoll_count_le (lookup : LookupFn) (s : BridgeData)
    (buf : List ManusNodePoseM) (cap : Nat) :
    (bridgePoll lookup s buf cap).2.2 ≤ cap := by
  obtain ⟨nx, rv⟩ := s
  cases nx with
  | none => exact Nat.zero_le _
  | some coll =>
      simp only [bridgePoll]
      split
      · exact Nat.zero_le _
      · exact flattenAux_idx_le lookup cap coll.skeletons buf 0 (Nat.zero_le cap)

theorem bridgePoll_drop (lookup : LookupFn) (s : BridgeData)
    (buf : List ManusNodePoseM) (cap : Nat) :
    (bridgePoll lookup s buf cap).2.1.drop (bridgePoll lookup s buf cap).2.2 =
      buf.drop (bridgePoll lookup s buf cap).2.2 := by
  obtain ⟨nx, rv⟩ := s
  cases nx with
  | none => rfl
  | some coll =>
      simp only [bridgePoll]
      split
      · rfl
      · exact flattenAux_drop lookup cap coll.skeletons buf 0 _ (Nat.le_refl _)

/-- Repeated polling with no callback firing in between: apply
`Bridge::Poll` `n` times, threading the bridge state and the caller's
buffer. -/
def pollRepeat (lookup : LookupFn) (cap : Nat) :
    Nat → BridgeData → List ManusNodePoseM → BridgeData × List ManusNodePoseM
  | 0, s, buf => (s, buf)
  | n + 1, s, buf =>
      let r := bridgePoll lookup s buf cap
      pollRepeat lookup cap n r.1 r.2.1

theorem pollRepeat_nextRaw_none (lookup : LookupFn) (cap : Nat) :
    ∀ (n : Nat) (s : BridgeData) (buf : List ManusNodePoseM),
      (pollRepeat lookup cap (n + 1) s buf).1.nextRaw = none := by
  intro n
  induction n with
  | zero =>
      intro s buf
      simp only [pollRepeat, bridgePoll_state]
  | succ n ih =>
      intro s buf
      rw [pollRepeat]
      exact ih _ _

/-! ### Frame assembly (`OnRawSkeletonStreamCallback`, bridge.cpp 315-343)

The two SDK fetch calls are oracles: `gi i` models
`CoreSdk_GetRawSkeletonInfo(i, &info)` — a success flag (`true` models
`SDKReturnCode_Success`) paired with the info the call leaves in its output
argument; `gd i n` models `CoreSdk_GetRawSkeletonData(i, nodes.data(), n)` —
a success flag paired with the node values the call leaves in the resized
buffer of length `n`.  The source discards both calls' return values, so
the embedding takes `.2` of each oracle and never consults `.1`: a failed
fetch still has its skeleton assembled with whatever data the call left. -/

def assembleFrame (gi : Nat → Bool × RawSkeletonInfoM)
    (gd : Nat → Nat → Bool × (Nat → SkeletonNodeM))
    (skeletonsCount : Nat) (publishTime : Nat) : ClientRawSkeletonCollectionM :=
  { skeletons := (List.range skeletonsCount).map (fun i =>
      { info := { (gi i).2 with publishTime := publishTime }
        nodes := (List.range (gi i).2.nodesCount).map (gd i (gi i).2.nodesCount).2 }) }

/-! ### Concrete inputs for scenario conjuncts and witnesses -/

/-- A metadata lookup that always succeeds; entry `j` has node id `j`. -/
def lookupOK : LookupFn := fun _ _ => some (fun j => { nodeId := j, side := 0 })

/-- A metadata lookup that fails exactly for glove id 1. -/
def lookupFailGlove1 : LookupFn :=
  fun g _ => if g = 1 then none else some (fun j => { nodeId := j, side := 2 })

/-- A 3-node skeleton on glove 1. -/
def skThree : ClientRawSkeletonM :=
  { info := { gloveId := 1, nodesCount := 3, publishTime := 0 }
    nodes := List.replicate 3 default }

/-- A 5-node skeleton on glove 2. -/
def skFive : ClientRawSkeletonM :=
  { info := { gloveId := 2, nodesCount := 5, publishTime := 0 }
    nodes := List.replicate 5 default }

/-- A 2-node skeleton on glove 1 (its lookup fails under
`lookupFailGlove1`). -/
def skFailing : ClientRawSkeletonM :=
  { info := { gloveId := 1, nodesCount := 2, publishTime := 0 }
    nodes := List.replicate 2 default }

/-- A 3-node skeleton on glove 2 with distinguishable node payloads. -/
def skGood : ClientRawSkeletonM :=
  { info := { gloveId := 2, nodesCount := 3, publishTime := 0 }
    nodes := [
      { transform := { position := { x := 10, y := 0, z := 0 },
                       rotation := { x := 0, y := 0, z := 0, w := 1 } } },
      { transform := { position := { x := 20, y := 0, z := 0 },
                       rotation := { x := 0, y := 0, z := 0, w := 1 } } },
      { transform := { position := { x := 30, y := 0, z := 0 },
                       rotation := { x := 0, y := 0, z := 0, w := 1 } } }] }

/-- Info-fetch oracle whose calls all report failure. -/
def giFail : Nat → Bool × RawSkeletonInfoM :=
  fun _ => (false, { gloveId := 7, nodesCount := 2, publishTime := 0 })

/-- Same info-fetch oracle, but reporting success: only the flag differs. -/
def giOk : Nat → Bool × RawSkeletonInfoM :=
  fun _ => (true, { gloveId := 7, nodesCount := 2, publishTime := 0 })

/-- Node-data oracle whose calls all report failure. -/
def gdFail : Nat → Nat → Bool × (Nat → SkeletonNodeM) :=
  fun _ _ => (false, fun _ => default)

/-- A pending snapshot that contains zero skeletons. -/
def emptyFrameBD : BridgeData :=
  { nextRaw := some { skeletons := [] }, raw := none }

/-- An empty slot with a previously claimed snapshot still pointed to by
`m_RawSkeleton`. -/
def retainedBD : BridgeData :=
  { nextRaw := none, raw := some { skeletons := [skThree] } }

/-- Claim C3: the flattening performed by `Poll` writes at most `cap`
records for every bridge state, buffer and capacity (first conjunct); and
whenever the total declared node count fits the capacity, the buffer is at
least capacity-sized and every per-skeleton metadata lookup succeeds, the
flattening writes exactly all nodes, and the buffer prefix agrees position
by position with the records listed skeleton by skeleton and node by node
(second conjunct). -/
theorem c3_flatten_capacity_and_order :
    (∀ (lookup : LookupFn) (s : BridgeData) (buf : List ManusNodePoseM) (cap : Nat),
        (bridgePoll lookup s buf cap).2.2 ≤ cap) ∧
    (∀ (lookup : LookupFn) (cap : Nat) (skels : List ClientRawSkeletonM)
        (buf : List ManusNodePoseM),
        totalNodes skels ≤ cap → cap ≤ buf.length →
        (∀ sk ∈ skels, (lookup sk.info.gloveId sk.info.nodesCount).isSome) →
        (flattenAux lookup cap skels buf 0).2 = totalNodes skels ∧
        (∀ j, j < totalNodes skels →
          ((flattenAux lookup cap skels buf 0).1)[j]? =
            ((skels.map (skRecords lookup)).flatten)[j]?)) := by
  refine ⟨fun lookup s buf cap => bridgePoll_count_le lookup s buf cap, ?_⟩
  intro lookup cap skels buf htot hlen hsome
  have hc := flattenAux_complete lookup cap skels buf 0 (by omega) hsome
  have hjlen := joinRecords_length lookup skels hsome
  rw [hc]
  refine ⟨by omega, ?_⟩
  intro j hj
  have hm := setSeq_getElem?_mid ((skels.map (skRecords lookup)).flatten) buf 0 j
    (Nat.zero_le j) (by omega) (by omega)
  simpa using hm

/-- Witness for `c3_flatten_capacity_and_order` at the spec's own scenario:
two skeletons of 3 and 5 nodes, capacity 10, all lookups succeeding — all
8 nodes are written. -/
theorem c3_witness :
    totalNodes [skThree, skFive] ≤ 10 ∧
    (flattenAux lookupOK 10 [skThree, skFive]
        (List.replicate 10 default) 0).2 = totalNodes [skThree, skFive] :=
  ⟨by decide, (c3_flatten_capacity_and_order.2 lookupOK 10 [skThree, skFive]
      (List.replicate 10 default) (by decide) (by decide) (by decide)).1⟩

/-- Claim C4: the capacity check of the flattening loop is per skeleton:
as soon as the records already written plus the next skeleton's full node
count exceed the capacity, processing stops entirely, the buffer is
untouched from that point on and the running count is returned (first
conjunct); the count returned is always the total node count of a
subsequence of the snapshot's skeletons, so no skeleton is ever partially
emitted (second conjunct); and for the spec's scenario — skeletons of 3
and 5 nodes with capacity 4 — exactly 3 records are written (third
conjunct). -/
theorem c4_per_skeleton_capacity_check :
    (∀ (lookup : LookupFn) (cap : Nat) (sk : ClientRawSkeletonM)
        (rest : List ClientRawSkeletonM) (buf : List ManusNodePoseM) (idx : Nat),
        idx + sk.info.nodesCount > cap →
        flattenAux lookup cap (sk :: rest) buf idx = (buf, idx)) ∧
    (∀ (lookup : LookupFn) (cap : Nat) (skels : List ClientRawSkeletonM)
        (buf : List ManusNodePoseM),
        ∃ sub : List ClientRawSkeletonM, List.Sublist sub skels ∧
          (flattenAux lookup cap skels buf 0).2 = totalNodes sub) ∧
    (flattenAux lookupOK 4 [skThree, skFive] (List.replicate 4 default) 0).2 = 3 := by
  refine ⟨?_, ?_, by decide⟩
  · intro lookup cap sk rest buf idx h
    rw [flattenAux, if_pos h]
  · intro lookup cap skels buf
    obtain ⟨sub, hsub, hc⟩ := flattenAux_whole_skeletons lookup cap skels buf 0
    exact ⟨sub, hsub, by omega⟩

/-- Witness for `c4_per_skeleton_capacity_check`: a 5-node skeleton against
capacity 4 triggers the overflow break immediately, so nothing is written. -/
theorem c4_witness :
    0 + skFive.info.nodesCount > 4 ∧
    flattenAux lookupOK 4 [skFive] (List.replicate 4 default) 0 =
      (List.replicate 4 default, 0) :=
  ⟨by decide, c4_per_skeleton_capacity_check.1 lookupOK 4 skFive []
      (List.replicate 4 default) 0 (by decide)⟩

/-- Claim C5: the code evaluated at the claim's failing input — a stream
of one skeleton (publish time 5) whose info fetch and node-data fetch both
report failure.  The callback discards both return codes (bridge.cpp
lines 326 and 333), records nothing, and still assembles the failed
skeleton into the frame with whatever data the calls left behind, where
the claim (and the spec's assembly-time failure isolation) requires the
failure to be recorded and the skeleton not to be assembled: the assembled
frame is not empty, it contains exactly the failed skeleton. -/
theorem c5_failed_fetch_still_assembled :
    (giFail 0).1 = false ∧ (gdFail 0 2).1 = false ∧
    (assembleFrame giFail gdFail 1 5).skeletons ≠ [] ∧
    (assembleFrame giFail gdFail 1 5).skeletons =
      [{ info := { gloveId := 7, nodesCount := 2, publishTime := 5 }
         nodes := [default, default] }] :=
  ⟨rfl, rfl, by decide, by decide⟩

/-- General shape of frame assembly: the callback always assembles exactly
`skeletonsCount` skeletons, one per stream index, each with a node list
sized to its declared node count, and the assembled frame does not depend
on the fetch success flags at all — the return codes are discarded. -/
theorem assembleFrame_ignores_return_codes :
    ∀ (gi : Nat → Bool × RawSkeletonInfoM)
      (gd : Nat → Nat → Bool × (Nat → SkeletonNodeM)) (c t : Nat),
      (assembleFrame gi gd c t).skeletons.length = c ∧
      (∀ sk ∈ (assembleFrame gi gd c t).skeletons,
        sk.nodes.length = sk.info.nodesCount) ∧
      (∀ (gi' : Nat → Bool × RawSkeletonInfoM)
        (gd' : Nat → Nat → Bool × (Nat → SkeletonNodeM)),
        (∀ i, (gi i).2 = (gi' i).2) → (∀ i n, (gd i n).2 = (gd' i n).2) →
        assembleFrame gi gd c t = assembleFrame gi' gd' c t) := by
  intro gi gd c t
  refine ⟨by simp [assembleFrame], ?_, ?_⟩
  · intro sk hsk
    simp only [assembleFrame, List.mem_map, List.mem_range] at hsk
    obtain ⟨i, _, rfl⟩ := hsk
    simp
  · intro gi' gd' h1 h2
    unfold assembleFrame
    congr 1
    apply List.map_congr_left
    intro i _
    rw [h1 i, h2 i]

/-- Instance of `assembleFrame_ignores_return_codes`: the frame assembled
with all fetches reporting failure equals the frame assembled with all
fetches reporting success, the left-behind data being equal. -/
theorem assembleFrame_ignores_return_codes_example :
    assembleFrame giFail gdFail 1 5 = assembleFrame giOk gdFail 1 5 :=
  (assembleFrame_ignores_return_codes giFail gdFail 1 5).2.2 giOk gdFail
    (fun _ => rfl) (fun _ _ => rfl)

/-- Claim C6 counterexample: when the slot holds a snapshot with zero
skeletons, the slot is not empty, yet `poll` returns -2 rather than the 0
the claim requires ("success otherwise"): the code keys the status on the
written count alone (bridge.cpp line 37), not on slot emptiness. -/
theorem c6_counterexample_empty_snapshot_not_success :
    emptyFrameBD.nextRaw ≠ none ∧
    (pollApi lookupOK (some emptyFrameBD) false false [] 4).status = -2 ∧
    (pollApi lookupOK (some emptyFrameBD) false false [] 4).status ≠ 0 ∧
    (pollApi lookupOK (some emptyFrameBD) false false [] 4).countOut = some 0 :=
  ⟨by decide, by decide, by decide, by decide⟩

/-- Claim C6, amended: for every poll call on an initialized bridge with
valid arguments, `count` is set to the flattener's written count, the
status is -2 exactly when that count is zero and 0 exactly when it is
nonzero; an empty slot always yields count zero and status -2 — a
previously retained snapshot is never reused (it is deleted by the swap) —
and, per the counterexample, a non-empty slot whose snapshot flattens to
zero records also yields -2. -/
theorem c6_status_reflects_written_count :
    ∀ (lookup : LookupFn) (s : BridgeData) (buf : List ManusNodePoseM) (cap : Nat),
      (pollApi lookup (some s) false false buf cap).countOut =
        some (bridgePoll lookup s buf cap).2.2 ∧
      ((pollApi lookup (some s) false false buf cap).status = -2 ↔
        (bridgePoll lookup s buf cap).2.2 = 0) ∧
      ((pollApi lookup (some s) false false buf cap).status = 0 ↔
        (bridgePoll lookup s buf cap).2.2 ≠ 0) ∧
      (s.nextRaw = none →
        (pollApi lookup (some s) false false buf cap).status = -2 ∧
        (bridgePoll lookup s buf cap).2.2 = 0) := by
  intro lookup s buf cap
  have hst : (pollApi lookup (some s) false false buf cap).status =
      (if (bridgePoll lookup s buf cap).2.2 = 0 then (-2 : Int) else 0) := rfl
  refine ⟨rfl, ?_, ?_, ?_⟩
  · rw [hst]
    by_cases h : (bridgePoll lookup s buf cap).2.2 = 0
    · rw [if_pos h]
      exact ⟨fun _ => h, fun _ => rfl⟩
    · rw [if_neg h]
      exact ⟨fun h0 => absurd h0 (by decide), fun hc => absurd hc h⟩
  · rw [hst]
    by_cases h : (bridgePoll lookup s buf cap).2.2 = 0
    · rw [if_pos h]
      exact ⟨fun h0 => absurd h0 (by decide), fun hc => absurd h hc⟩
    · rw [if_neg h]
      exact ⟨fun _ => h, fun _ => rfl⟩
  · intro h
    have hc : (bridgePoll lookup s buf cap).2.2 = 0 := by
      rw [bridgePoll_empty lookup s buf cap h]
    exact ⟨by rw [hst, if_pos hc], hc⟩

/-- Witness for `c6_status_reflects_written_count`: an empty slot with a
previously claimed snapshot still retained yields status -2 and written
count zero (the retained snapshot is not reused). -/
theorem c6_witness :
    retainedBD.nextRaw = none ∧
    ((pollApi lookupOK (some retainedBD) false false [] 4).status = -2 ∧
     (bridgePoll lookupOK retainedBD [] 4).2.2 = 0) :=
  ⟨rfl, (c6_status_reflects_written_count lookupOK retainedBD [] 4).2.2.2 rfl⟩

/-- Claim C7: when a skeleton's metadata lookup fails (and the skeleton
would have fit), the flattening skips that entire skeleton and continues
with the rest, the buffer index unchanged (first conjunct); and for a
snapshot with one failing and one succeeding skeleton, the output is
exactly the successful skeleton's 3 records at positions 0..2 with written
count 3 > 0 (remaining conjuncts). -/
theorem c7_lookup_failure_skips_skeleton :
    (∀ (lookup : LookupFn) (cap : Nat) (sk : ClientRawSkeletonM)
        (rest : List ClientRawSkeletonM) (buf : List ManusNodePoseM) (idx : Nat),
        idx + sk.info.nodesCount ≤ cap →
        lookup sk.info.gloveId sk.info.nodesCount = none →
        flattenAux lookup cap (sk :: rest) buf idx =
          flattenAux lookup cap rest buf idx) ∧
    ((flattenAux lookupFailGlove1 10 [skFailing, skGood]
        (List.replicate 10 default) 0).2 = 3 ∧
     (flattenAux lookupFailGlove1 10 [skFailing, skGood]
        (List.replicate 10 default) 0).1.take 3 = skRecords lookupFailGlove1 skGood ∧
     0 < (flattenAux lookupFailGlove1 10 [skFailing, skGood]
        (List.replicate 10 default) 0).2) := by
  refine ⟨?_, by decide, by decide, by decide⟩
  intro lookup cap sk rest buf idx h hl
  rw [flattenAux, if_neg (by omega), hl]

/-- Witness for `c7_lookup_failure_skips_skeleton`: the failing 2-node
skeleton fits capacity 10 and its lookup fails, so flattening it alone is
the same as flattening nothing. -/
theorem c7_witness :
    0 + skFailing.info.nodesCount ≤ 10 ∧
    flattenAux lookupFailGlove1 10 [skFailing] (List.replicate 10 default) 0 =
      flattenAux lookupFailGlove1 10 [] (List.replicate 10 default) 0 :=
  ⟨by decide, c7_lookup_failure_skips_skeleton.1 lookupFailGlove1 10 skFailing []
      (List.replicate 10 default) 0 (by decide) rfl⟩

/-- Claim C8: polling repeatedly with no publish in between yields
"no data"/count 0 on every call after the first: after at least one poll
(and none of the callback firings that would refill the slot), the next
poll call returns status -2, reports count 0, leaves the caller's buffer
untouched and leaves the bridge holding no snapshot at all. -/
theorem c8_empty_poll_idempotent :
    ∀ (lookup : LookupFn) (cap n : Nat) (s : BridgeData) (buf : List ManusNodePoseM),
      pollApi lookup (some (pollRepeat lookup cap (n + 1) s buf).1) false false
          (pollRepeat lookup cap (n + 1) s buf).2 cap =
        { status := -2
          inst := some { nextRaw := none, raw := none }
          buf := (pollRepeat lookup cap (n + 1) s buf).2
          countOut := some 0 } := by
  intro lookup cap n s buf
  have h := pollRepeat_nextRaw_none lookup cap n s buf
  have hb := bridgePoll_empty lookup (pollRepeat lookup cap (n + 1) s buf).1
    (pollRepeat lookup cap (n + 1) s buf).2 cap h
  simp [pollApi, hb]

/-- Claim C9 counterexample: a `poll` call with a null buffer pointer
while no bridge instance exists — a call the claim quantifies over —
returns -1, not the -3 the claim requires for every null-buffer call,
because the initialization check (bridge.cpp line 26) precedes the
argument check (line 29); nothing is mutated on this path either (the
full result is evaluated). -/
theorem c9_counterexample_null_args_uninitialized :
    pollApi lookupOK none true false [] 4 =
      { status := -1, inst := none, buf := [], countOut := none } ∧
    (pollApi lookupOK none true false [] 4).status ≠ -3 :=
  ⟨rfl, by decide⟩

/-- Claim C9, amended: when a bridge instance exists, every `poll` call
with a null buffer pointer or a null count pointer returns -3 and mutates
nothing — the instance state, the buffer and the count output are all left
untouched; when no instance exists the initialization check fires first
and the call returns -1, likewise without mutation. -/
theorem c9_invalid_args_no_mutation :
    (∀ (lookup : LookupFn) (s : BridgeData) (bufNull countNull : Bool)
        (buf : List ManusNodePoseM) (cap : Nat),
        (bufNull || countNull) = true →
        pollApi lookup (some s) bufNull countNull buf cap =
          { status := -3, inst := some s, buf := buf, countOut := none }) ∧
    (∀ (lookup : LookupFn) (bufNull countNull : Bool)
        (buf : List ManusNodePoseM) (cap : Nat),
        pollApi lookup none bufNull countNull buf cap =
          { status := -1, inst := none, buf := buf, countOut := none }) := by
  refine ⟨?_, fun _ _ _ _ _ => rfl⟩
  intro lookup s bufNull countNull buf cap h
  simp [pollApi, h]

/-- Witness for `c9_invalid_args_no_mutation` at a null buffer pointer on
an initialized bridge holding a pending snapshot. -/
theorem c9_witness :
    (true || false) = true ∧
    pollApi lookupOK (some { nextRaw := some { skeletons := [skThree] }, raw := none })
        true false [] 4 =
      { status := -3
        inst := some { nextRaw := some { skeletons := [skThree] }, raw := none }
        buf := []
        countOut := none } :=
  ⟨rfl, c9_invalid_args_no_mutation.1 lookupOK
      { nextRaw := some { skeletons := [skThree] }, raw := none } true false [] 4 rfl⟩

/-- Claim C10: a poll call that reports `n` records written leaves every
buffer entry from index `n` on unchanged (dropping the first `n` entries
of the final buffer gives exactly the corresponding suffix of the original
buffer, which covers all indices up to — and beyond — the capacity). -/
theorem c10_buffer_untouched_beyond_count :
    ∀ (lookup : LookupFn) (inst : Option BridgeData) (bufNull countNull : Bool)
      (buf : List ManusNodePoseM) (cap n : Nat),
      (pollApi lookup inst bufNull countNull buf cap).countOut = some n →
      (pollApi lookup inst bufNull countNull buf cap).buf.drop n = buf.drop n := by
  intro lookup inst bufNull countNull buf cap n h
  cases inst with
  | none => simp [pollApi] at h
  | some s =>
      cases bufNull with
      | true => simp [pollApi] at h
      | false =>
          cases countNull with
          | true => simp [pollApi] at h
          | false =>
              have h' : (bridgePoll lookup s buf cap).2.2 = n := by
                simpa [pollApi] using h
              have hbuf : (pollApi lookup (some s) false false buf cap).buf =
                  (bridgePoll lookup s buf cap).2.1 := rfl
              rw [hbuf, ← h']
              exact bridgePoll_drop lookup s buf cap

/-- Witness for `c10_buffer_untouched_beyond_count`: an empty-slot poll
reports 0 records and leaves the whole buffer unchanged. -/
theorem c10_witness :
    (pollApi lookupOK (some { nextRaw := none, raw := none }) false false
        (List.replicate 2 default) 4).countOut = some 0 ∧
    (pollApi lookupOK (some { nextRaw := none, raw := none }) false false
        (List.replicate 2 default) 4).buf.drop 0 = (List.replicate 2 default).drop 0 :=
  ⟨rfl, c10_buffer_untouched_beyond_count lookupOK
      (some { nextRaw := none, raw := none }) false false
      (List.replicate 2 default) 4 0 rfl⟩

end ManusBridge
